import Mathlib

/-!
# Verification of the BTU course scraper/dashboard pipeline (`main.py`)

A shallow embedding of the HTML-extractor, URL-resolution, rendering and
caching logic of the scraper, together with theorems settling the frozen
claims about it.

Modelling conventions:
* HTML documents are represented by the structured values the extractors
  inspect (table rows as lists of cells carrying their stripped text and
  anchors), since the extractors only ever look at that structure.
* Python floats are modelled as exact rationals (`ℚ`); the special values
  `inf`/`nan` and binary rounding are outside the model.  `float()` string
  conversion is modelled by `pyFloat?` over the finite decimal-literal
  grammar (sign, digits with underscores, fraction, exponent).
* Python `str.strip()` is modelled over ASCII whitespace, `str.isalnum` /
  `str.lower` over ASCII letters and digits.
* `urllib.parse` splitting/joining follows the CPython 3.11 algorithm;
  the model is total (CPython's `ValueError` for unbalanced brackets in
  an IPv6 netloc is not modelled).
* Filesystem reads become explicit `Bool` parameters / state records, and
  network fetches become oracles, so the orchestration code is a pure
  state-transition function.
-/

namespace Scraper

/-! ## Basic text helpers (Python string semantics) -/

/-- ASCII whitespace, the characters Python's `str.strip()` removes
(restricted to ASCII in this model). -/
def pyWs (c : Char) : Bool :=
  c = ' ' ∨ c = '\t' ∨ c = '\n' ∨ c = '\x0d' ∨ c = '\x0b' ∨ c = '\x0c'

/-- Model of Python `str.lstrip()` on character lists. -/
def lstripL (l : List Char) : List Char := l.dropWhile pyWs

/-- Model of Python `str.strip()` on character lists: drop leading and
trailing whitespace. -/
def pyStripL (l : List Char) : List Char :=
  ((lstripL l).reverse.dropWhile pyWs).reverse

/-- Model of Python `str.strip()` on strings. -/
def pyStripS (s : String) : String := (pyStripL s.data).asString

/-- Model of `txt.replace(",", ".")`: every comma becomes a period. -/
def commaToDotL (l : List Char) : List Char :=
  l.map (fun c => if c = ',' then '.' else c)

/-- ASCII decimal digit test. -/
def isDig (c : Char) : Bool := '0' ≤ c ∧ c ≤ '9'

def digVal (c : Char) : ℕ := c.toNat - 48

/-- Does `hay` start with `needle`? -/
def startsWithL : List Char → List Char → Bool
  | [], _ => true
  | _ :: _, [] => false
  | n :: ns, h :: hs => n = h ∧ startsWithL ns hs

/-- Python's `needle in hay` substring test. -/
def containsSub (needle : List Char) : List Char → Bool
  | [] => startsWithL needle []
  | h :: hs => startsWithL needle (h :: hs) ∨ containsSub needle hs

/-- Split at the first character satisfying `p`: returns the part before
it and, when found, the part after it (the matching character removed). -/
def splitAtFirst (p : Char → Bool) : List Char → List Char × Option (List Char)
  | [] => ([], none)
  | c :: cs =>
    if p c then ([], some cs)
    else
      let r := splitAtFirst p cs
      (c :: r.1, r.2)

/-- Python `s.split(sep, 1)[0]`-style: text before the first occurrence of
a single-character separator (the whole string when absent). -/
def beforeFirst (p : Char → Bool) (l : List Char) : List Char :=
  (splitAtFirst p l).1

/-- ASCII lower-casing of a single character. -/
def lowerAscii (c : Char) : Char :=
  if 'A' ≤ c ∧ c ≤ 'Z' then Char.ofNat (c.toNat + 32) else c

/-- ASCII model of Python `str.lower()`. -/
def lowerL (l : List Char) : List Char := l.map lowerAscii

def lowerS (s : String) : String := (lowerL s.data).asString

/-- Replace every occurrence of `pat` (non-empty) in `l` by `rep`,
Python `str.replace`.  Recursion on the length of `l`. -/
def replaceAllL (pat rep : List Char) : List Char → List Char
  | [] => []
  | c :: cs =>
    if startsWithL pat (c :: cs) ∧ pat ≠ [] then
      rep ++ replaceAllL pat rep (List.drop (pat.length - 1) cs)
    else
      c :: replaceAllL pat rep cs
  termination_by l => l.length
  decreasing_by
    · simp only [List.length_cons, List.length_drop]
      omega
    · simp only [List.length_cons]
      omega

/-! ## Model of Python `float(str)` on the finite decimal grammar -/

/-- Parse a run of ASCII digits where single underscores may stand between
two digits (CPython numeric literals).  Returns the digits (underscores
removed) and the rest; the run may be empty. -/
def digitsU : List Char → List Char × List Char
  | [] => ([], [])
  | [c] => if isDig c then ([c], []) else ([], [c])
  | c :: c2 :: cs =>
    if isDig c then
      if c2 = '_' then
        match cs with
        | d :: rest =>
          if isDig d then
            let r := digitsU (d :: rest)
            (c :: r.1, r.2)
          else ([c], c2 :: cs)
        | [] => ([c], [c2])
      else
        let r := digitsU (c2 :: cs)
        (c :: r.1, r.2)
    else ([], c :: c2 :: cs)

def digitsVal (ds : List Char) : ℕ := ds.foldl (fun a c => 10 * a + digVal c) 0

/-- The optional sign of a numeric literal: `(positive?, rest)`. -/
def parseSign : List Char → Bool × List Char
  | '+' :: cs => (true, cs)
  | '-' :: cs => (false, cs)
  | cs => (true, cs)

/-- Exponent part `([eE][+-]?digits)?`; fails (`none`) on a dangling `e`.
Returns the exponent and the rest. -/
def parseExp : List Char → Option (ℤ × List Char)
  | c :: cs =>
    if c = 'e' ∨ c = 'E' then
      let (pos, cs1) := parseSign cs
      let (ds, cs2) := digitsU cs1
      if ds = [] then none
      else some ((if pos then (digitsVal ds : ℤ) else -(digitsVal ds : ℤ)), cs2)
    else some (0, c :: cs)
  | [] => some (0, [])

/-- Model of CPython `float(s)` for finite decimal literals: optional
sign, digits with optional fraction (at least one digit in the mantissa),
optional exponent; underscores allowed between digits.  `inf`/`nan` and
non-ASCII digits are outside the model; the value is exact (`ℚ`). -/
def pyFloat? (l : List Char) : Option ℚ :=
  let (pos, l1) := parseSign l
  let (ip, l2) := digitsU l1
  let (fp, l3) :=
    match l2 with
    | '.' :: r => digitsU r
    | _ => ([], l2)
  if ip = [] ∧ fp = [] then none
  else
    match parseExp l3 with
    | none => none
    | some (e, l4) =>
      if l4 ≠ [] then none
      else
        let mant : ℚ := (digitsVal ip : ℚ) + (digitsVal fp : ℚ) / ((10 : ℚ) ^ fp.length)
        let signed := if pos then mant else -mant
        some (signed * (10 : ℚ) ^ e)

/-! ## `parse_num` (main.py lines 74–81)

```python
def parse_num(td_text):
    if td_text is None: return None
    txt = td_text.strip().replace(",", ".")
    try: return float(txt)
    except Exception: return txt.strip()
```
The extractors only call it on (non-None) strings. -/

/-- The dual-typed result of `parse_num`: a float or raw text. -/
inductive Value where
  | num (q : ℚ)
  | str (s : String)
deriving DecidableEq, Repr

def parse_num (s : String) : Value :=
  let txt := commaToDotL (pyStripL s.data)
  match pyFloat? txt with
  | some q => .num q
  | none => .str (pyStripL txt).asString

def Value.isNum : Value → Bool
  | .num _ => true
  | .str _ => false

def Value.getQ : Value → ℚ
  | .num q => q
  | .str _ => 0

/-! ## Model of `urllib.parse` URL splitting and joining

Follows the CPython 3.11 `urlsplit`/`urlunsplit`/`urlparse`/
`urlunparse`/`urljoin` algorithms on character lists, including the
whitespace/control-character sanitisation of `urlsplit`.  The model is
total: CPython's `ValueError` for unbalanced `[`/`]` in an IPv6 netloc
is not modelled (such hrefs are outside the model's domain). -/

def schemeCharsL : List Char :=
  "abcdefghijklmnopqrstuvwxyzABCDEFGHIJKLMNOPQRSTUVWXYZ0123456789+-.".data

def isAsciiAlpha (c : Char) : Bool :=
  ('a' ≤ c ∧ c ≤ 'z') ∨ ('A' ≤ c ∧ c ≤ 'Z')

/-- The scheme detection of `urlsplit`: the text before the first `:`
when it is a non-empty run of scheme characters starting with a letter.
Returns `(lower-cased scheme, rest)` on success. -/
def schemeSplit (u : List Char) : Option (List Char × List Char) :=
  match splitAtFirst (· = ':') u with
  | (before, some after) =>
    (match before with
     | [] => none
     | c :: cs =>
       if isAsciiAlpha c ∧ (c :: cs).all (· ∈ schemeCharsL) then
         some (lowerL (c :: cs), after)
       else none)
  | (_, none) => none

/-- A character ending the netloc (`_splitnetloc` delimiters). -/
def netlocEnd (c : Char) : Bool := c = '/' ∨ c = '?' ∨ c = '#'

/-- CPython 3.11 `urlsplit` preprocessing: strip leading WHATWG C0
control or space characters, then remove tab, carriage return and
newline everywhere. -/
def sanitizeUrl (u : List Char) : List Char :=
  (u.dropWhile (fun c => c.toNat ≤ 32)).filter
    (fun c => ¬ (c = '\t' ∨ c = '\x0d' ∨ c = '\n'))

/-- The rest of a sanitised URL after removing the scheme (the default
scheme does not influence the remainder). -/
def afterScheme (u : List Char) : List Char :=
  match schemeSplit u with
  | some sr => sr.2
  | none => u

/-- Just the netloc of a URL, as `urlparse(url).netloc` computes it. -/
def netlocOfM (url : List Char) : List Char :=
  let rest := afterScheme (sanitizeUrl url)
  if rest.take 2 = ['/', '/'] then (rest.drop 2).takeWhile (fun c => ¬ netlocEnd c)
  else []

structure SplitResult where
  scheme : List Char
  netloc : List Char
  path : List Char
  query : List Char
  fragment : List Char
deriving DecidableEq, Repr

/-- `url.split('#', 1)` when `'#'` occurs, else fragment is empty. -/
def splitHash (l : List Char) : List Char × List Char :=
  match splitAtFirst (· = '#') l with
  | (a, some b) => (a, b)
  | (a, none) => (a, [])

/-- `url.split('?', 1)` when `'?'` occurs, else query is empty. -/
def splitQm (l : List Char) : List Char × List Char :=
  match splitAtFirst (· = '?') l with
  | (a, some b) => (a, b)
  | (a, none) => (a, [])

/-- Model of `urllib.parse.urlsplit(url, scheme=dflt)` (allow_fragments
true, as at every call site of the scraper). -/
def urlsplitM (dflt url : List Char) : SplitResult :=
  let u := sanitizeUrl url
  let sch := match schemeSplit u with
             | some sr => sr.1
             | none => dflt
  let rest := afterScheme u
  let nl := if rest.take 2 = ['/', '/']
            then (rest.drop 2).takeWhile (fun c => ¬ netlocEnd c) else []
  let rest2 := if rest.take 2 = ['/', '/']
               then (rest.drop 2).dropWhile (fun c => ¬ netlocEnd c) else rest
  let hf := splitHash rest2
  let pq := splitQm hf.1
  ⟨sch, nl, pq.1, pq.2, hf.2⟩

structure UrlParts where
  scheme : List Char
  netloc : List Char
  path : List Char
  params : List Char
  query : List Char
  fragment : List Char
deriving DecidableEq, Repr

def usesRelative : List (List Char) :=
  (["", "ftp", "http", "gopher", "nntp", "imap", "wais", "file", "https",
    "shttp", "mms", "prospero", "rtsp", "rtspu", "sftp", "svn", "svn+ssh",
    "ws", "wss"].map String.data)

def usesNetloc : List (List Char) :=
  (["", "ftp", "http", "gopher", "nntp", "telnet", "imap", "wais", "file",
    "mms", "https", "shttp", "snews", "prospero", "rtsp", "rtspu", "rsync",
    "svn", "svn+ssh", "sftp", "nfs", "git", "git+ssh", "ws", "wss"].map
    String.data)

def usesParams : List (List Char) :=
  (["", "ftp", "hdl", "prospero", "http", "imap", "https", "shttp", "rtsp",
    "rtspu", "sip", "sips", "mms", "sftp", "tel"].map String.data)

/-- CPython `_splitparams`: split the params off the path — the part after
the first `';'` that occurs in the last path segment. -/
def splitparamsM (p : List Char) : List Char × List Char :=
  let lastSeg := (p.reverse.takeWhile (· ≠ '/')).reverse
  let stem := p.take (p.length - lastSeg.length)
  match splitAtFirst (· = ';') lastSeg with
  | (a, some b) => (stem ++ a, b)
  | (_, none) => (p, [])

/-- Model of `urllib.parse.urlparse`. -/
def urlparseM (dflt u : List Char) : UrlParts :=
  let s := urlsplitM dflt u
  if s.scheme ∈ usesParams ∧ ';' ∈ s.path then
    let pp := splitparamsM s.path
    ⟨s.scheme, s.netloc, pp.1, pp.2, s.query, s.fragment⟩
  else ⟨s.scheme, s.netloc, s.path, [], s.query, s.fragment⟩

/-- `urlunsplit` step 1: `if netloc or (url and url[:2] == '//')`,
prepend the `//netloc`, inserting a slash before a relative path. -/
def unsplitNetlocPart (netloc path : List Char) : List Char :=
  if netloc ≠ [] ∨ (path ≠ [] ∧ path.take 2 = ['/', '/']) then
    '/' :: '/' :: (netloc ++
      (if path ≠ [] ∧ path.take 1 ≠ ['/'] then '/' :: path else path))
  else path

/-- `urlunsplit` step 2: `if scheme: url = scheme + ':' + url`. -/
def unsplitAddScheme (scheme url : List Char) : List Char :=
  if scheme ≠ [] then scheme ++ ':' :: url else url

/-- `urlunsplit` step 3: `if query: url = url + '?' + query`. -/
def unsplitAddQuery (query url : List Char) : List Char :=
  if query ≠ [] then url ++ '?' :: query else url

/-- `urlunsplit` step 4: `if fragment: url = url + '#' + fragment`. -/
def unsplitAddFragment (fragment url : List Char) : List Char :=
  if fragment ≠ [] then url ++ '#' :: fragment else url

/-- Model of `urllib.parse.urlunsplit`. -/
def urlunsplitM (s : SplitResult) : List Char :=
  unsplitAddFragment s.fragment (unsplitAddQuery s.query
    (unsplitAddScheme s.scheme (unsplitNetlocPart s.netloc s.path)))

/-- Model of `urllib.parse.urlunparse`. -/
def urlunparseM (x : UrlParts) : List Char :=
  let url := if x.params ≠ [] then x.path ++ ';' :: x.params else x.path
  urlunsplitM ⟨x.scheme, x.netloc, url, x.query, x.fragment⟩

/-- Python `str.split('/')` (non-empty separator, no limit). -/
def splitSlash : List Char → List (List Char)
  | [] => [[]]
  | c :: cs =>
    if c = '/' then [] :: splitSlash cs
    else
      match splitSlash cs with
      | [] => [[c]]
      | p :: ps => (c :: p) :: ps

/-- The slice assignment `segments[1:-1] = filter(None, segments[1:-1])`:
drop empty segments strictly between the first and last. -/
def filterMiddle (l : List (List Char)) : List (List Char) :=
  match l with
  | [] => []
  | [a] => [a]
  | a :: rest =>
    match rest.reverse with
    | [] => [a]
    | z :: midRev => a :: (midRev.reverse.filter (· ≠ [])) ++ [z]

/-- The dot-segment resolution loop of `urljoin` (`resolved_path`), with
`pop()` on an empty list ignored. -/
def resolveDots : List (List Char) → List (List Char) → List (List Char)
  | [], acc => acc
  | s :: rest, acc =>
    if s = "..".data then resolveDots rest acc.dropLast
    else if s = ".".data then resolveDots rest acc
    else resolveDots rest (acc ++ [s])

/-- The tail of `urljoin` once the scheme checks passed and the url has
no netloc of its own: inherit the base's netloc (for netloc-carrying
schemes), reuse the base path on an empty path, otherwise resolve the
relative path against the base path's directory. -/
def urljoinResolve (b u : UrlParts) : List Char :=
  let netloc := if u.scheme ∈ usesNetloc then b.netloc else u.netloc
  if u.path = [] ∧ u.params = [] then
    urlunparseM ⟨u.scheme, netloc, b.path, b.params,
      (if u.query = [] then b.query else u.query), u.fragment⟩
  else
    let baseParts0 := splitSlash b.path
    let baseParts := if baseParts0.getLast? ≠ some [] then
        baseParts0.dropLast else baseParts0
    let segments := if u.path.take 1 = ['/'] then
        splitSlash u.path
      else filterMiddle (baseParts ++ splitSlash u.path)
    let resolved0 := resolveDots segments []
    let resolved := if segments.getLast? = some ".".data ∨
        segments.getLast? = some "..".data then resolved0 ++ [[]]
      else resolved0
    let joined := List.intercalate ['/'] resolved
    let rpath := if joined = [] then ['/'] else joined
    urlunparseM ⟨u.scheme, netloc, rpath, u.params, u.query, u.fragment⟩

/-- Model of `urllib.parse.urljoin(base, url)`. -/
def urljoinM (base url : List Char) : List Char :=
  if base = [] then url
  else if url = [] then base
  else
    let b := urlparseM [] base
    let u := urlparseM b.scheme url
    if u.scheme ≠ b.scheme ∨ u.scheme ∉ usesRelative then url
    else if u.scheme ∈ usesNetloc ∧ u.netloc ≠ [] then
      urlunparseM ⟨u.scheme, u.netloc, u.path, u.params, u.query, u.fragment⟩
    else urljoinResolve b u

/-- The course-listing base URL (`BASE_URL` in main.py). -/
def BASEURL : List Char :=
  "https://classroom.btu.edu.ge/en/student/me/courses".data

/-- The URL-absolutization step of `parse_courses` (main.py lines
112–114): `if url and not urlparse(url).netloc: url = urljoin(BASE_URL,
url)`. -/
def absolutizeHref (u : List Char) : List Char :=
  if u ≠ [] ∧ netlocOfM u = [] then urljoinM BASEURL u else u

def absolutizeHrefS (s : String) : String := (absolutizeHref s.data).asString

/-! ## `parse_courses` (main.py lines 84–118)

The extractor only inspects the `<tbody>` rows of the selected table; a
row is modelled as its list of `<td>` cells, a cell by its stripped text
(`get_text(strip=True)`) and its first anchor descendant (`find("a")`),
an anchor by its stripped text and optional `href` attribute. -/

structure Anchor where
  text : String
  href : Option String
deriving DecidableEq, Repr

structure Cell where
  text : String
  anchor : Option Anchor
deriving DecidableEq, Repr

def emptyCell : Cell := ⟨"", none⟩

structure CourseR where
  name : String
  grade : Value
  ects : Value
  url : Option String
deriving DecidableEq, Repr

/-- Course extraction from a 6-cell row (main.py lines 106–116):
name from the anchor of cell index 2 (its raw text if no anchor), grade
from cell 3, ects from cell 5, URL from the anchor's href, absolutized
when relative. -/
def extractCourse (r : List Cell) : CourseR :=
  let c2 := r.getD 2 emptyCell
  let name := match c2.anchor with
              | some a => a.text
              | none => c2.text
  let url0 : Option String := match c2.anchor with
              | some a => a.href
              | none => none
  let url := match url0 with
             | some h => some (absolutizeHrefS h)
             | none => none
  ⟨name, parse_num (r.getD 3 emptyCell).text, parse_num (r.getD 5 emptyCell).text, url⟩

/-- Is this row the aggregate-ECTS sentinel: exactly 2 cells, empty first
cell? -/
def isSentinelRow (r : List Cell) : Bool :=
  r.length = 2 ∧ (r.getD 0 emptyCell).text = ""

/-- The row loop of `parse_courses` (lines 96–116), with the running
course list and running `total_ects` made explicit. -/
def parseCoursesLoop : List (List Cell) → List CourseR → Option Value →
    List CourseR × Option Value
  | [], acc, tot => (acc, tot)
  | r :: rs, acc, tot =>
    if isSentinelRow r then
      parseCoursesLoop rs acc (some (parse_num (r.getD 1 emptyCell).text))
    else if r.length = 6 then
      parseCoursesLoop rs (acc ++ [extractCourse r]) tot
    else
      parseCoursesLoop rs acc tot

/-- `parse_courses` on the rows of the (present) courses table; for a
document without the table or a tbody the source returns `([], None)`,
i.e. the same as the empty row list. -/
def parse_courses (rows : List (List Cell)) : List CourseR × Option Value :=
  parseCoursesLoop rows [] none

/-! ## `parse_scores` (main.py lines 144–175) -/

structure Assessment where
  component : String
  score : Option String
  max_points : Option ℚ
deriving DecidableEq, Repr

structure ScoreBundle where
  group : Option String
  lector : Option String
  assessments : List Assessment
deriving DecidableEq, Repr

/-- A scores page, reduced to what `parse_scores` inspects: the text of
`.tab_scores h4` (with its optional lector-anchor text), and the
2-column body rows of `.tab_scores table` as (component, score) stripped
texts.  `none` stands for an absent element. -/
structure ScoresDoc where
  h4Text : Option String
  h4Lector : Option String
  tableRows : Option (List (List String))
deriving DecidableEq, Repr

/-- The `max N` extraction regex `max\.?\s*([\d.,]+)` applied at one
position (must match right here); returns the captured group. -/
def maxGroupAt (l : List Char) : Option (List Char) :=
  match l with
  | 'm' :: 'a' :: 'x' :: rest =>
    let noDot :=
      let g := (rest.dropWhile pyWs).takeWhile (fun c => isDig c ∨ c = '.' ∨ c = ',')
      if g ≠ [] then some g else none
    (match rest with
     | '.' :: r2 =>
       let g := (r2.dropWhile pyWs).takeWhile (fun c => isDig c ∨ c = '.' ∨ c = ',')
       if g ≠ [] then some g else noDot
     | _ => noDot)
  | _ => none

/-- `re.search(r'max\.?\s*([\d.,]+)', component)`: the group of the
match at the earliest position. -/
def maxSearch : List Char → Option (List Char)
  | [] => none
  | c :: cs =>
    match maxGroupAt (c :: cs) with
    | some g => some g
    | none => maxSearch cs

/-- The `max_points` computation of `parse_scores` (lines 167–173):
`float(max_match.group(1).replace(",", "."))`, `None` on `ValueError`. -/
def parseMaxPoints (component : String) : Option ℚ :=
  match maxSearch component.data with
  | some g => pyFloat? (commaToDotL g)
  | none => none

/-- Is this assessment row excluded (line 164): component is the total /
credits sentinel or carries the exam-withdrawal marker? -/
def isExcludedComponent (component : String) : Bool :=
  component = "სულ" ∨ component = "Credits" ∨
    containsSub "გამოცდაზე გასვლის".data component.data

/-- One assessment row of the scores table (lines 159–174). -/
def assessmentOfRow (tds : List String) : Option Assessment :=
  if tds.length ≠ 2 then none
  else
    let component := tds.getD 0 ""
    let score := tds.getD 1 ""
    if isExcludedComponent component then none
    else if component = "" then none
    else some ⟨component, (if score = "" then none else some score),
      parseMaxPoints component⟩

/-- Python `s.split(sep, 1)` for a non-empty separator: the part before
the first occurrence and, when present, the part after it. -/
def splitOnceSub (sep : List Char) : List Char → List Char × Option (List Char)
  | [] => ([], none)
  | c :: cs =>
    if startsWithL sep (c :: cs) ∧ sep ≠ [] then
      ([], some ((c :: cs).drop sep.length))
    else
      let r := splitOnceSub sep cs
      (c :: r.1, r.2)

/-- `s.split(sep, 1)[0]`. -/
def beforeFirstSub (sep l : List Char) : List Char := (splitOnceSub sep l).1

/-- The group/lector header handling of `parse_scores` (lines 147–155). -/
def scoresHeader (d : ScoresDoc) : Option String × Option String :=
  match d.h4Text with
  | none => (none, none)
  | some text =>
    let group := if containsSub "Group".data text.data then
        some (pyStripS (replaceAllL "Group".data []
          (beforeFirstSub " - ".data text.data)).asString)
      else none
    (group, d.h4Lector)

/-- `parse_scores`. -/
def parse_scores (d : ScoresDoc) : ScoreBundle :=
  let gl := scoresHeader d
  let rows := d.tableRows.getD []
  ⟨gl.1, gl.2, rows.filterMap assessmentOfRow⟩

/-! ## `parse_files` (main.py lines 178–208)

The second-cell `select_one("a")` anchor may lack an `href` attribute;
the source then evaluates `ext_link["href"]`, which raises `KeyError`.
The embedding therefore returns `Except`. -/

structure FileAnchor where
  href : Option String
deriving DecidableEq, Repr

structure FileCell where
  text : String
  uploadHref : Option String
  anyAnchor : Option FileAnchor
deriving DecidableEq, Repr

structure FileRow where
  lectorText : Option String
  classes : List String
  cells : List FileCell
deriving DecidableEq, Repr

structure Material where
  name : String
  url : Option String
  external_url : Option String
deriving DecidableEq, Repr

def strTruthy : Option String → Bool
  | none => false
  | some s => s ≠ ""

/-- `urljoin(BASE_URL, s)` on strings. -/
def urljoinS (s : String) : String := (urljoinM BASEURL s.data).asString

/-- The row loop of `parse_files`, carrying the current-lecturer
context; `.error` models the uncaught `KeyError` of `ext_link["href"]`
(line 203). -/
def parseFilesLoop (myLector : Option String) :
    List FileRow → Option String → Except String (List Material)
  | [], _ => .ok []
  | tr :: rest, cur =>
    if tr.lectorText.isSome ∧ "info" ∈ tr.classes then
      parseFilesLoop myLector rest tr.lectorText
    else if strTruthy myLector ∧ strTruthy cur ∧
        lowerS (cur.getD "") ≠ lowerS (myLector.getD "") then
      parseFilesLoop myLector rest cur
    else
      match tr.cells with
      | [] => parseFilesLoop myLector rest cur
      | td0 :: restCells =>
        let url : Option String :=
          match td0.uploadHref with
          | some h => if h ≠ "" then some (urljoinS h) else none
          | none => none
        let name := td0.text
        let extA : Option FileAnchor :=
          match restCells.head? with
          | some td1 => td1.anyAnchor
          | none => none
        match extA with
        | some a =>
          match a.href with
          | none => .error "KeyError: href"
          | some eh =>
            let extUrl : Option String :=
              if eh ≠ "" then some (urljoinS eh) else some eh
            (parseFilesLoop myLector rest cur).map
              (fun ms => (if name ≠ "" then [Material.mk name url extUrl] else []) ++ ms)
        | none =>
          (parseFilesLoop myLector rest cur).map
            (fun ms => (if name ≠ "" then [Material.mk name url none] else []) ++ ms)

/-- `parse_files`: `none` rows stands for an absent `#files` table. -/
def parse_files (rows : Option (List FileRow)) (myLector : Option String) :
    Except String (List Material) :=
  match rows with
  | none => .ok []
  | some rs => parseFilesLoop myLector rs none

/-! ## `parse_groups` (main.py lines 211–223) -/

structure GroupRow where
  classes : List String
  text : String
deriving DecidableEq, Repr

/-- `parse_groups`: `none` stands for an absent `#groups` table. -/
def parse_groups (rows : Option (List GroupRow)) : List String :=
  match rows with
  | none => []
  | some rs => rs.filterMap (fun r =>
      if "warning" ∈ r.classes then none
      else if r.text ≠ "" ∧ ¬ containsSub "Not found".data r.text.data then
        some r.text
      else none)

/-! ## `extract_course_urls` (main.py lines 121–140) -/

/-- A subpage tag of the per-course navigation. -/
inductive STag where
  | syllabus
  | groups
  | scores
  | files
  | syllabusFile
deriving DecidableEq, Repr

/-- Classification of one tab anchor's href (lines 127–135); anchors
matching no substring are ignored. -/
def classifyHref (href : String) : Option STag :=
  if containsSub "silabus".data href.data then some .syllabus
  else if containsSub "groups".data href.data then some .groups
  else if containsSub "scores".data href.data then some .scores
  else if containsSub "files".data href.data then some .files
  else none

/-- `extract_course_urls` on the hrefs of the `#course_tabs` anchors
(`none` = container absent) and the optional `courseSilabusFile` anchor
href: the resulting tag ↦ absolute-URL assignments, later ones
overriding earlier ones as in the dict. -/
def extract_course_urls (tabHrefs : Option (List String))
    (syllabusFileHref : Option String) : STag → Option String :=
  let base : STag → Option String := fun _ => none
  let withTabs := (tabHrefs.getD []).foldl
    (fun m href => match classifyHref href with
      | some t => fun t' => if t' = t then some (urljoinS href) else m t'
      | none => m) base
  match syllabusFileHref with
  | some h => fun t' => if t' = .syllabusFile then some (urljoinS h) else withTabs t'
  | none => withTabs

/-! ## Numeric formatting models

Python `str`/format on floats, modelled on exact rationals: `str(int(v))`
for integral values, plain decimal expansion otherwise (capped at 17
fractional digits; the repr-shortest behaviour of binary floats is
outside the model), banker's rounding for `format(v, '.0f')` /
`'.2f')`. -/

/-- Python `int(q)`: truncation toward zero. -/
def pyInt (q : ℚ) : ℤ := if 0 ≤ q then ⌊q⌋ else -⌊-q⌋

/-- Round half to even (Python float formatting). -/
def rhe (q : ℚ) : ℤ :=
  let f := ⌊q⌋
  let r := q - (f : ℚ)
  if r < 1/2 then f
  else if 1/2 < r then f + 1
  else if f % 2 = 0 then f else f + 1

/-- Fractional digits of `n / d` (`0 ≤ n < d`), at most `fuel` digits. -/
def fracDigits : ℕ → ℕ → ℕ → List Char
  | 0, _, _ => []
  | _ + 1, 0, _ => []
  | fuel + 1, n, d =>
    let n10 := n * 10
    Char.ofNat (48 + n10 / d) :: fracDigits fuel (n10 % d) d

/-- Model of `fmt_num` (main.py lines 320–323). -/
def fmtQ (q : ℚ) : String :=
  if q.den = 1 then toString q.num
  else
    (if q < 0 then "-" else "") ++ toString ⌊|q|⌋ ++ "." ++
      (fracDigits 17 (|q| - (⌊|q|⌋ : ℚ)).num.toNat (|q| - (⌊|q|⌋ : ℚ)).den).asString

def fmtNum (v : Value) : String :=
  match v with
  | .num q => fmtQ q
  | .str s => s

/-- `f"{p:.0f}"`. -/
def fmtPct0 (q : ℚ) : String := toString (rhe q)

/-- `f"{v:.2f}"` (used for the GPA). -/
def formatFixed2 (q : ℚ) : String :=
  let n := rhe (q * 100)
  let m := n.natAbs
  (if n < 0 then "-" else "") ++ toString (m / 100) ++ "." ++
    (if m % 100 < 10 then "0" else "") ++ toString (m % 100)

/-! ## Colour scales (main.py lines 326–353) -/

def get_grade_color (grade : ℚ) : String :=
  if grade ≥ 91 then "#22c55e"
  else if grade ≥ 81 then "#84cc16"
  else if grade ≥ 71 then "#eab308"
  else if grade ≥ 61 then "#f97316"
  else if grade ≥ 51 then "#ef4444"
  else "#991b1b"

def get_percentage_color (percentage : ℚ) : String :=
  if percentage ≥ 91 then "#22c55e"
  else if percentage ≥ 81 then "#84cc16"
  else if percentage ≥ 71 then "#eab308"
  else if percentage ≥ 61 then "#f97316"
  else if percentage ≥ 51 then "#ef4444"
  else "#991b1b"

/-! ## `urllib.parse.quote(s, safe="")` -/

def quoteSafeByte (b : UInt8) : Bool :=
  (65 ≤ b.toNat ∧ b.toNat ≤ 90) ∨ (97 ≤ b.toNat ∧ b.toNat ≤ 122) ∨
  (48 ≤ b.toNat ∧ b.toNat ≤ 57) ∨ b.toNat = 95 ∨ b.toNat = 46 ∨
  b.toNat = 45 ∨ b.toNat = 126

def hexDigitU (n : ℕ) : Char :=
  if n < 10 then Char.ofNat (48 + n) else Char.ofNat (55 + n)

/-- Percent-encode every UTF-8 byte outside the always-safe set. -/
def quoteS (s : String) : String :=
  (s.toUTF8.toList.foldr
    (fun b acc =>
      (if quoteSafeByte b then [Char.ofNat b.toNat]
       else ['%', hexDigitU (b.toNat / 16), hexDigitU (b.toNat % 16)]) ++ acc)
    []).asString

/-! ## `generate_course_html` (main.py lines 356–460)

The single filesystem read, `os.path.exists(syllabus_path)`, becomes the
explicit parameter `fsPdf`. -/

/-- The per-course data bundle assembled by
`parse_course_data_from_folder`: each key independently absent.  The
renderer reads `scores` (absent ↦ `{}`), `materials` (absent ↦ `[]`) and
`syllabus_file` (never set by the pipeline, but read by the renderer). -/
structure Bundle where
  scores : Option ScoreBundle
  materials : List Material
  groups : List String
  syllabus_file : Option String
deriving DecidableEq, Repr

def assessmentsOf (d : Bundle) : List Assessment :=
  match d.scores with
  | some sb => sb.assessments
  | none => []

def scoreTruthy : Option String → Bool := strTruthy

/-- Python truthiness of `a.get("max_points")`: non-None and non-zero. -/
def mpTruthy : Option ℚ → Bool
  | none => false
  | some q => q ≠ 0

/-- `max_possible` (lines 361–364): sum of `max_points` over assessments
having both a (truthy) score and a (truthy) max. -/
def maxPossible (d : Bundle) : ℚ :=
  (assessmentsOf d).foldl
    (fun acc a => if scoreTruthy a.score ∧ mpTruthy a.max_points then
        acc + a.max_points.getD 0 else acc) 0

/-- `f'<span class="pct-badge" ...>{p:.0f}%</span>'`. -/
def pctBadge (p : ℚ) (color : String) : String :=
  "<span class=\"pct-badge\" style=\"background: " ++ color ++
    "20; color: " ++ color ++ "\">" ++ fmtPct0 p ++ "%</span>"

/-- The grade display of the course header (lines 366–384):
`(grade_color, grade_display, pct_badge)`. -/
def gradeParts (c : CourseR) (d : Bundle) : String × String × String :=
  match c.grade with
  | .num g =>
    if maxPossible d > 0 then
      let percentage := g / maxPossible d * 100
      let color := get_percentage_color percentage
      (color, fmtQ g ++ "/" ++ fmtQ (maxPossible d),
        if 0 < percentage ∧ percentage < 100 then pctBadge percentage color else "")
    else (get_grade_color g, fmtQ g, "")
  | .str s => ("#52525b", s, "")

/-- The per-assessment rendering state (lines 394–423):
`(score_display, score_class, pct)`. -/
def asmtParts (a : Assessment) : String × String × String :=
  match a.score with
  | none => ("—", " empty", "")
  | some rs =>
    if rs = "" then ("—", " empty", "")
    else
      let sv? := pyFloat? (commaToDotL rs.data)
      let scoreFormatted := match sv? with
                            | some v => fmtQ v
                            | none => rs
      match a.max_points with
      | some mp =>
        if mp ≠ 0 then
          let sd := scoreFormatted ++ "/" ++ fmtQ mp
          match sv? with
          | some sv =>
            let percentage := sv / mp * 100
            let color := get_percentage_color percentage
            (sd, "\" style=\"color: " ++ color,
              if 0 < percentage ∧ percentage < 100 then pctBadge percentage color
              else "")
          | none => (sd, "", "")
        else (scoreFormatted, "", "")
      | none => (scoreFormatted, "", "")

/-- Component label truncation (lines 424–426): cut at the first `(`,
then strip. -/
def truncName (n : String) : String :=
  if containsSub "(".data n.data then
    pyStripS (beforeFirst (· = '(') n.data).asString
  else n

/-- One assessment `<span>` (line 427). -/
def renderAssessment (a : Assessment) : String :=
  let p := asmtParts a
  "<span class=\"assessment\"><span class=\"assessment-name\">" ++
    truncName a.component ++ "</span><span class=\"assessment-score" ++
    p.2.1 ++ "\">" ++ p.1 ++ "</span>" ++ p.2.2 ++ "</span>"

/-- Python `c.isalnum()` restricted to ASCII. -/
def pyIsAlnum (c : Char) : Bool := c.isAlpha ∨ isDig c

/-- The filesystem-safe folder name derived from a course name. -/
def safeName (n : String) : String :=
  pyStripS (n.data.filter (fun c => pyIsAlnum c ∨ c = ' ' ∨ c = '-' ∨ c = '_')).asString

/-- The syllabus link (lines 387–434): dependent on `fsPdf`, the
existence of `courses/<safe>/syllabus.pdf` on disk. -/
def syllabusHtmlOf (c : CourseR) (d : Bundle) (fsPdf : Bool) : String :=
  let hasSyllabus := fsPdf ∨ strTruthy d.syllabus_file
  if hasSyllabus ∧ strTruthy d.syllabus_file then
    "<a href=\"/api/proxy?url=" ++ quoteS (d.syllabus_file.getD "") ++
      "\" class=\"syllabus-link\" target=\"_blank\">Syllabus</a>"
  else if fsPdf then
    "<a href=\"/courses/" ++ safeName c.name ++
      "/syllabus.pdf\" class=\"syllabus-link\" target=\"_blank\">Syllabus</a>"
  else ""

/-- Material links (lines 436–446). -/
def materialLinks (ms : List Material) : String :=
  ms.foldl (fun acc m =>
    acc ++ match m.url with
           | some u =>
             if u ≠ "" then
               "<a href=\"/api/proxy?url=" ++ quoteS u ++
                 "\" class=\"material\" target=\"_blank\">" ++ m.name ++ "</a>"
             else ""
           | none => "") ""

def materialsHtmlOf (ms : List Material) : String :=
  if ms ≠ [] then
    "<div class=\"materials-section\">\n            <div class=\"materials-toggle\"><span class=\"arrow\">▶</span> Materials (" ++
      toString ms.length ++
      ")</div>\n            <div class=\"materials\">" ++ materialLinks ms ++
      "</div>\n        </div>"
  else ""

/-- `scores.get(key, dflt)` display: the dict default when `scores.html`
was never parsed, the Python rendering of `None` when the parsed bundle
has no value. -/
def scoresGetDisplay (sc : Option ScoreBundle) (f : ScoreBundle → Option String)
    (dflt : String) : String :=
  match sc with
  | none => dflt
  | some sb => match f sb with
               | none => "None"
               | some s => s

/-- `{int(course['ects']) if isinstance(course['ects'], (float, int))
else course['ects']}`. -/
def ectsDisplay (v : Value) : String :=
  match v with
  | .num q => toString (pyInt q)
  | .str s => s

/-- `generate_course_html(course, data)`; `fsPdf` is
`os.path.exists(os.path.join(course_folder, "syllabus.pdf"))`. -/
def generate_course_html (c : CourseR) (d : Bundle) (fsPdf : Bool) : String :=
  let gp := gradeParts c d
  "<div class=\"course\">\n    <div class=\"course-header\">\n        <div class=\"course-info\">\n            <div class=\"course-name\">" ++
    c.name ++
    "</div>\n            <div class=\"course-meta\">Group " ++
    scoresGetDisplay d.scores (fun sb => sb.group) "?" ++ " · " ++
    scoresGetDisplay d.scores (fun sb => sb.lector) "Unknown" ++
    "</div>\n        </div>\n        " ++
    syllabusHtmlOf c d fsPdf ++
    "\n        <span class=\"ects\">" ++ ectsDisplay c.ects ++
    " ECTS</span>\n        <div class=\"grade\" style=\"color: " ++
    gp.1 ++ "\">" ++ gp.2.1 ++ gp.2.2 ++
    "</div>\n    </div>\n    <div class=\"assessments\">" ++
    (assessmentsOf d).foldl (fun acc a => acc ++ renderAssessment a) "" ++
    "</div>\n    " ++ materialsHtmlOf d.materials ++ "\n</div>"

/-! ## `generate_summary_html` aggregation (main.py lines 463–506)

The summary figures, factored out of the HTML building exactly as the
source computes them. -/

def CoursesData := List (CourseR × Bundle)

def numOr0 (v : Value) : ℚ :=
  match v with
  | .num q => q
  | .str _ => 0

/-- `total_score`: the raw grade summed whenever it is numeric (line
472–473). -/
def totalScore (l : List (CourseR × Bundle)) : ℚ :=
  l.foldl (fun acc cd => if cd.1.grade.isNum then acc + numOr0 cd.1.grade else acc) 0

/-- `total_max_possible` (lines 474–478). -/
def totalMaxPossible (l : List (CourseR × Bundle)) : ℚ :=
  l.foldl (fun acc cd => acc + maxPossible cd.2) 0

/-- The qualification test of line 479: numeric grade, positive
course-max, numeric ects. -/
def qualifies (cd : CourseR × Bundle) : Bool :=
  cd.1.grade.isNum ∧ maxPossible cd.2 > 0 ∧ cd.1.ects.isNum

/-- `course_percentages` (lines 480–481). -/
def coursePercentages (l : List (CourseR × Bundle)) : List (ℚ × ℚ) :=
  l.filterMap (fun cd =>
    if qualifies cd then some (numOr0 cd.1.grade / maxPossible cd.2 * 100, numOr0 cd.1.ects)
    else none)

/-- `total_ects_earned` (line 482). -/
def totalEctsEarned (l : List (CourseR × Bundle)) : ℚ :=
  l.foldl (fun acc cd => if qualifies cd then acc + numOr0 cd.1.ects else acc) 0

/-- The percentage-band grade points of lines 485–496. -/
def gradePoints (pct : ℚ) : ℚ :=
  if pct ≥ 91 then 4
  else if pct ≥ 81 then 3
  else if pct ≥ 71 then 2
  else if pct ≥ 61 then 1
  else if pct ≥ 51 then 1/2
  else 0

/-- `weighted_gpa` (lines 483–497). -/
def weightedGpa (l : List (CourseR × Bundle)) : ℚ :=
  (coursePercentages l).foldl (fun acc pe => acc + gradePoints pe.1 * pe.2) 0

/-- `gpa` (line 498): divide only when the earned ECTS total is
positive. -/
def gpaOf (l : List (CourseR × Bundle)) : ℚ :=
  if totalEctsEarned l > 0 then weightedGpa l / totalEctsEarned l else 0

/-! ## The subpage caching policy of `fetch_course_pages`
(main.py lines 255–292)

State: which cached files exist for the course; a fetch failure is
swallowed (`except ... print`), so the file is written only when the
fetch succeeds (`ok`).  The returned event list records every fetch
attempt, in order. -/

structure CourseFs where
  pdfExists : Bool
  syllabusHtml : Bool
  groupsHtml : Bool
  scoresHtml : Bool
  filesHtml : Bool
deriving DecidableEq, Repr

/-- Processing of one `(name, url)` entry of the subpage loop:
`syllabus_file` and `syllabus`/`groups` are skipped when their cached
file exists, `scores`/`files` are always fetched and overwritten. -/
def fetchSub (ok : STag → Bool) (st : CourseFs) : STag → CourseFs × List STag
  | .syllabusFile =>
    if st.pdfExists then (st, [])
    else ((if ok .syllabusFile then
        ⟨true, st.syllabusHtml, st.groupsHtml, st.scoresHtml, st.filesHtml⟩
      else st), [.syllabusFile])
  | .scores =>
    ((if ok .scores then
        ⟨st.pdfExists, st.syllabusHtml, st.groupsHtml, true, st.filesHtml⟩
      else st), [.scores])
  | .files =>
    ((if ok .files then
        ⟨st.pdfExists, st.syllabusHtml, st.groupsHtml, st.scoresHtml, true⟩
      else st), [.files])
  | .syllabus =>
    if st.syllabusHtml then (st, [])
    else ((if ok .syllabus then
        ⟨st.pdfExists, true, st.groupsHtml, st.scoresHtml, st.filesHtml⟩
      else st), [.syllabus])
  | .groups =>
    if st.groupsHtml then (st, [])
    else ((if ok .groups then
        ⟨st.pdfExists, st.syllabusHtml, true, st.scoresHtml, st.filesHtml⟩
      else st), [.groups])

/-- The subpage loop of `fetch_course_pages` over the detected URL
entries (in dict order), threading the filesystem state and collecting
fetch attempts. -/
def fetchCoursePages (ok : STag → Bool) : List STag → CourseFs →
    CourseFs × List STag
  | [], st => (st, [])
  | t :: ts, st =>
    let r1 := fetchSub ok st t
    let r2 := fetchCoursePages ok ts r1.1
    (r2.1, r1.2 ++ r2.2)

/-! ## The `/api/generate` course loop (main.py lines 598–638)

The per-course landing-page fetch (`fetch_course_pages`, whose first
action is an unguarded `fetch_text`) is not wrapped in `try`; model it
as an oracle `landing` indexed by the loop position that either yields
the course's data bundle or raises.  Courses without a (truthy) URL are
processed without any fetch (`fetch_course_pages` returns `{}`
immediately).  On success the dashboard is written (`writeIndex`) and
the course count returned. -/

inductive GEvent where
  | landingFetch (i : ℕ)
  | writeIndex
deriving DecidableEq, Repr

def urlTruthy (c : CourseR) : Bool :=
  match c.url with
  | some u => u ≠ ""
  | none => false

/-- The `for course in courses` loop of `api_generate`: returns the
processed `(course, data)` pairs or the propagated exception, plus the
events. -/
def generateLoop (landing : ℕ → Except String Bundle) :
    List CourseR → ℕ → Except String (List (CourseR × Bundle)) × List GEvent
  | [], _ => (.ok [], [])
  | c :: cs, i =>
    if urlTruthy c then
      match landing i with
      | .error e => (.error e, [.landingFetch i])
      | .ok b =>
        let r := generateLoop landing cs (i + 1)
        (r.1.map (fun l => (c, b) :: l), .landingFetch i :: r.2)
    else
      let r := generateLoop landing cs (i + 1)
      (r.1.map (fun l => (c, ⟨none, [], [], none⟩) :: l), r.2)

/-- `/api/generate`: on success the dashboard file is written and the
course count returned; an uncaught exception propagates and nothing is
written. -/
def api_generate (landing : ℕ → Except String Bundle) (courses : List CourseR) :
    Except String ℕ × List GEvent :=
  let r := generateLoop landing courses 0
  match r.1 with
  | .ok l => (.ok l.length, r.2 ++ [.writeIndex])
  | .error e => (.error e, r.2)

/-! ## Specification-side definitions

Direct transcriptions of the spec's wording, to be compared with the
source-derived functions above. -/

/-- Spec: "the total-score numerator sums the grade of every course
whose grade is numeric". -/
def sumNumericGrades (l : List (CourseR × Bundle)) : ℚ :=
  ((l.filter (fun cd => cd.1.grade.isNum)).map (fun cd => numOr0 cd.1.grade)).sum

/-- Spec: "the summary's total-ECTS figure sums ects only over courses
where the grade is numeric AND the per-course max-possible is > 0 AND
ects is numeric". -/
def sumQualifyingEcts (l : List (CourseR × Bundle)) : ℚ :=
  ((l.filter qualifies).map (fun cd => numOr0 cd.1.ects)).sum

/-- Spec: "each qualifying course contributes grade_points(pct) * ects,
where pct = grade / max-possible * 100". -/
def specWeightedSum (l : List (CourseR × Bundle)) : ℚ :=
  ((l.filter qualifies).map
    (fun cd => gradePoints (numOr0 cd.1.grade / maxPossible cd.2 * 100)
      * numOr0 cd.1.ects)).sum

/-- The GPA exactly as claim C1 words it: "GPA equals the weighted sum
divided by the total qualifying ECTS, and equals 0 when there are no
qualifying courses". -/
def claimGpa (l : List (CourseR × Bundle)) : ℚ :=
  if l.filter qualifies = [] then 0
  else specWeightedSum l / sumQualifyingEcts l

/-- Spec-side reading of "the source cell text is a valid
comma-or-period decimal": accepted by the float conversion after
trimming and comma→period translation (the conversion the spec itself
specifies for `parse_num`). -/
def validDecimal (s : String) : Bool :=
  (pyFloat? (commaToDotL (pyStripL s.data))).isSome

/-- Spec-side per-row course extraction: only 6-cell rows are course
rows. -/
def courseOfRow? (r : List Cell) : Option CourseR :=
  if r.length = 6 then some (extractCourse r) else none

/-- Spec-side per-row sentinel extraction: a 2-cell row with empty first
cell carries the numeric-parsed aggregate ECTS (its last cell). -/
def sentinelOf? (r : List Cell) : Option Value :=
  if isSentinelRow r then some (parse_num (r.getD 1 emptyCell).text) else none

/-! ## Concrete example data used by the claims -/

/-- A qualifying course/bundle with the given grade, ects and single
scored assessment of the given max. -/
def mkQual (g e m : ℚ) : CourseR × Bundle :=
  (⟨"X", .num g, .num e, none⟩,
   ⟨some ⟨none, none, [⟨"A", some "1", some m⟩]⟩, [], [], none⟩)

/-- The two-course example of claim C1: (55 of 60, 5 ECTS) and (90 of
100, 6 ECTS). -/
def gpaExample : List (CourseR × Bundle) := [mkQual 55 5 60, mkQual 90 6 100]

/-- A qualifying course with negative ECTS: grade 95 of 100, ects −1. -/
def gpaNegEcts : List (CourseR × Bundle) := [mkQual 95 (-1) 100]

/-- A course with a numeric grade but no qualifying assessments
(max-possible 0). -/
def zeroMaxCourse : CourseR × Bundle :=
  (⟨"Z", .num 50, .num 5, none⟩, ⟨none, [], [], none⟩)

/-- A course with non-numeric grade/ects (renders via the plain-text
branches). -/
def courseStr : CourseR := ⟨"Bio", .str "N/A", .str "tbd", none⟩

/-- A bundle with nothing parsed and no captured syllabus URL. -/
def bundleEmpty : Bundle := ⟨none, [], [], none⟩

/-- A bundle whose only content is a captured remote syllabus URL. -/
def bundleSyl : Bundle := ⟨none, [], [], some "https://classroom.btu.edu.ge/f/1"⟩

/-- A files-table row whose second cell holds an anchor without an
`href` attribute (its first cell has a name and no upload link). -/
def badFileRow : FileRow := ⟨none, [], [⟨"doc", none, none⟩, ⟨"", none, some ⟨none⟩⟩]⟩

/-- A scores document with a single assessment row without a `max N`
marker. -/
def quizDoc : ScoresDoc := ⟨none, none, some [["Quiz", "5"]]⟩

def quizAssessment : Assessment := ⟨"Quiz", some "5", none⟩

/-- A landing-page oracle failing exactly at loop position 1. -/
def witnessLanding : ℕ → Except String Bundle :=
  fun i => if i = 1 then .error "boom" else .ok ⟨none, [], [], none⟩

def witnessCourses : List CourseR :=
  [⟨"A", .str "", .str "", some "u"⟩, ⟨"B", .str "", .str "", some "u"⟩,
   ⟨"C", .str "", .str "", some "u"⟩]

/-- An aggregate-ECTS sentinel row: 2 cells, empty first cell. -/
def sentinelRowEx : List Cell := [⟨"", none⟩, ⟨"30", none⟩]

/-- A 6-cell course row with an anchored name cell. -/
def courseRowEx : List Cell :=
  [⟨"1", none⟩, ⟨"", none⟩, ⟨"Calculus", some ⟨"Calculus", some "/en/c/5"⟩⟩,
   ⟨"55", none⟩, ⟨"", none⟩, ⟨"5", none⟩]

/-- The parse of `BASE_URL`. -/
def baseParsed : UrlParts :=
  ⟨"https".data, "classroom.btu.edu.ge".data, "/en/student/me/courses".data,
   [], [], []⟩

end Scraper

namespace Scraper

/-! # Theorems -/

/-! ## Generic fold/filter lemmas -/

theorem foldl_add_eq (f : α → ℚ) (l : List α) (init : ℚ) :
    l.foldl (fun acc x => acc + f x) init = init + (l.map f).sum := by
  induction l generalizing init with
  | nil => simp
  | cons a t ih => simp [ih, add_assoc]

theorem foldl_add_if_eq (f : α → ℚ) (p : α → Bool) (l : List α) (init : ℚ) :
    l.foldl (fun acc x => if p x then acc + f x else acc) init
      = init + ((l.filter p).map f).sum := by
  induction l generalizing init with
  | nil => simp
  | cons a t ih =>
    by_cases h : p a <;> simp [h, ih, add_assoc]

theorem filterMap_if_eq (g : α → β) (p : α → Bool) (l : List α) :
    l.filterMap (fun x => if p x then some (g x) else none)
      = (l.filter p).map g := by
  induction l with
  | nil => simp
  | cons a t ih =>
    by_cases h : p a <;> simp [h, ih, List.filterMap_cons]

/-! ## C2: the two summary subsets -/

theorem totalScore_eq (l : List (CourseR × Bundle)) :
    totalScore l = sumNumericGrades l := by
  unfold totalScore sumNumericGrades
  simpa using foldl_add_if_eq (fun cd => numOr0 cd.1.grade)
    (fun cd => cd.1.grade.isNum) l 0

theorem totalEcts_eq (l : List (CourseR × Bundle)) :
    totalEctsEarned l = sumQualifyingEcts l := by
  unfold totalEctsEarned sumQualifyingEcts
  simpa using foldl_add_if_eq (fun cd => numOr0 cd.1.ects) qualifies l 0

/-- C2: the total-ECTS figure sums ects exactly over the qualifying
courses (numeric grade, positive max-possible, numeric ects), while the
total-score numerator sums the grade of every course with a numeric
grade; the concrete zero-max course shows the two subsets differ: its
grade 50 enters the total score while its 5 ects do not enter the
ECTS/GPA denominator. -/
theorem C2_summary_subsets :
    (∀ l, totalScore l = sumNumericGrades l)
    ∧ (∀ l, totalEctsEarned l = sumQualifyingEcts l)
    ∧ totalScore [zeroMaxCourse] = 50
    ∧ totalEctsEarned [zeroMaxCourse] = 0
    ∧ (zeroMaxCourse.1.grade.isNum = true ∧ qualifies zeroMaxCourse = false) := by
  refine ⟨totalScore_eq, totalEcts_eq, ?_, ?_, ?_, ?_⟩
  · norm_num [totalScore, zeroMaxCourse, numOr0, Value.isNum]
  · norm_num [totalEctsEarned, zeroMaxCourse, qualifies, maxPossible,
      assessmentsOf, Value.isNum]
  · rfl
  · norm_num [qualifies, zeroMaxCourse, maxPossible, assessmentsOf, Value.isNum]

/-! ## C1: the ECTS-weighted GPA -/

theorem coursePercentages_eq (l : List (CourseR × Bundle)) :
    coursePercentages l = (l.filter qualifies).map
      (fun cd => (numOr0 cd.1.grade / maxPossible cd.2 * 100, numOr0 cd.1.ects)) := by
  unfold coursePercentages
  exact filterMap_if_eq _ qualifies l

theorem weightedGpa_eq (l : List (CourseR × Bundle)) :
    weightedGpa l = specWeightedSum l := by
  unfold weightedGpa specWeightedSum
  rw [coursePercentages_eq]
  have h := foldl_add_eq (fun pe : ℚ × ℚ => gradePoints pe.1 * pe.2)
    ((l.filter qualifies).map
      (fun cd => (numOr0 cd.1.grade / maxPossible cd.2 * 100, numOr0 cd.1.ects))) 0
  simpa [List.map_map, Function.comp] using h

/-- C1 counterexample: for the single qualifying course with grade 95 of
100 and ects −1 the claimed formula (weighted sum over total qualifying
ECTS, 0 only when no course qualifies) yields 4, but the code yields 0
(it divides only when the earned-ECTS total is positive). -/
theorem gpaNegEcts_code : gpaOf gpaNegEcts = 0 := by
  norm_num [gpaOf, totalEctsEarned, qualifies, maxPossible, assessmentsOf,
    mkQual, gpaNegEcts, show scoreTruthy (some "1") = true from rfl, mpTruthy,
    numOr0, Value.isNum]

theorem gpaNegEcts_claim : claimGpa gpaNegEcts = 4 := by
  norm_num [claimGpa, specWeightedSum, sumQualifyingEcts, qualifies,
    maxPossible, assessmentsOf, mkQual, gpaNegEcts,
    show scoreTruthy (some "1") = true from rfl, mpTruthy, numOr0, Value.isNum,
    gradePoints, List.filter]

theorem C1_counterexample :
    gpaOf gpaNegEcts = 0 ∧ claimGpa gpaNegEcts = 4
      ∧ gpaOf gpaNegEcts ≠ claimGpa gpaNegEcts := by
  refine ⟨gpaNegEcts_code, gpaNegEcts_claim, ?_⟩
  rw [gpaNegEcts_code, gpaNegEcts_claim]
  norm_num

theorem gpaExample_val : gpaOf gpaExample = 38 / 11 := by
  norm_num [gpaOf, totalEctsEarned, weightedGpa, coursePercentages, qualifies,
    maxPossible, assessmentsOf, mkQual, gpaExample,
    show scoreTruthy (some "1") = true from rfl, mpTruthy, numOr0, Value.isNum,
    gradePoints, List.filterMap]

theorem rhe_gpaExample : rhe ((38 : ℚ) / 11 * 100) = 345 := by
  have hf : ⌊(38 : ℚ) / 11 * 100⌋ = 345 := by
    rw [Int.floor_eq_iff]
    constructor
    · norm_num
    · norm_num
  norm_num [rhe, hf]

/-- C1 (amended): the summary GPA equals the spec's ECTS-weighted sum of
band grade points divided by the total qualifying ECTS whenever that
total is positive, and 0 otherwise (in particular when no course
qualifies); on the two-course example (55/60, 5 ECTS) and (90/100,
6 ECTS) it formats to "3.45" at two decimals. -/
theorem C1_gpa_weighted :
    (∀ l, gpaOf l =
      if sumQualifyingEcts l > 0 then specWeightedSum l / sumQualifyingEcts l
      else 0)
    ∧ formatFixed2 (gpaOf gpaExample) = "3.45" := by
  constructor
  · intro l
    unfold gpaOf
    rw [totalEcts_eq, weightedGpa_eq]
  · rw [gpaExample_val]
    unfold formatFixed2
    rw [rhe_gpaExample]
    rfl

/-! ## C4: `parse_num` on unparseable text -/

theorem pyWs_commaToDot (c : Char) :
    pyWs (if c = ',' then '.' else c) = pyWs c := by
  by_cases h : c = ',' <;> simp [h, pyWs]

theorem dropWhile_commaToDot (l : List Char) :
    (commaToDotL l).dropWhile pyWs = commaToDotL (l.dropWhile pyWs) := by
  induction l with
  | nil => rfl
  | cons a t ih =>
    simp only [commaToDotL, List.map_cons, List.dropWhile_cons,
      pyWs_commaToDot] at ih ⊢
    by_cases h : pyWs a = true
    · rw [if_pos h, if_pos h]
      exact ih
    · rw [if_neg h, if_neg h, List.map_cons]

theorem reverse_commaToDot (l : List Char) :
    (commaToDotL l).reverse = commaToDotL l.reverse := by
  unfold commaToDotL
  exact (List.map_reverse _ _).symm

theorem strip_commaToDot (l : List Char) :
    pyStripL (commaToDotL l) = commaToDotL (pyStripL l) := by
  unfold pyStripL lstripL
  rw [dropWhile_commaToDot, reverse_commaToDot, dropWhile_commaToDot,
    reverse_commaToDot]

theorem dropWhile_idem (p : α → Bool) (l : List α) :
    (l.dropWhile p).dropWhile p = l.dropWhile p := by
  induction l with
  | nil => simp
  | cons a t ih =>
    by_cases h : p a <;> simp [List.dropWhile_cons, h, ih]

theorem length_dropWhile_le (p : α → Bool) (l : List α) :
    (l.dropWhile p).length ≤ l.length := by
  induction l with
  | nil => simp
  | cons a t ih =>
    rw [List.dropWhile_cons]
    by_cases h : p a
    · rw [if_pos h]
      simp only [List.length_cons]
      omega
    · rw [if_neg h]

/-- After left-stripping, right-stripping introduces no new leading
whitespace. -/
theorem lstrip_of_rstrip (l : List Char) (h : l.dropWhile pyWs = l) :
    ((l.reverse.dropWhile pyWs).reverse).dropWhile pyWs
      = (l.reverse.dropWhile pyWs).reverse := by
  cases l with
  | nil => simp
  | cons a t =>
    have ha : ¬ pyWs a = true := by
      intro hp
      rw [List.dropWhile_cons, if_pos hp] at h
      have hlen := congrArg List.length h
      have hle : (t.dropWhile pyWs).length ≤ t.length := length_dropWhile_le pyWs t
      simp at hlen
      omega
    rw [List.reverse_cons, List.dropWhile_append]
    by_cases he : (t.reverse.dropWhile pyWs).isEmpty
    · simp [he, List.dropWhile_cons, ha]
    · simp only [he, if_false, Bool.false_eq_true, List.reverse_append,
        List.reverse_cons, List.reverse_nil, List.nil_append,
        List.singleton_append, List.dropWhile_cons]
      rw [if_neg ha]

theorem strip_idem (l : List Char) : pyStripL (pyStripL l) = pyStripL l := by
  show pyStripL (((l.dropWhile pyWs).reverse.dropWhile pyWs).reverse)
    = ((l.dropWhile pyWs).reverse.dropWhile pyWs).reverse
  unfold pyStripL lstripL
  rw [lstrip_of_rstrip (l.dropWhile pyWs) (dropWhile_idem _ _)]
  rw [List.reverse_reverse, dropWhile_idem]

/-- C4 counterexample: on the unparseable input `" a,b "` the source
returns `"a.b"` — the comma has been replaced by a period — not the
trimmed original `"a,b"`. -/
theorem C4_counterexample :
    parse_num " a,b " = Value.str "a.b"
      ∧ parse_num " a,b " ≠ Value.str (pyStripS " a,b ") := by
  refine ⟨by rfl, ?_⟩
  rw [show parse_num " a,b " = Value.str "a.b" from rfl,
    show pyStripS " a,b " = "a,b" from rfl]
  simp

/-- C4 (amended): `parse_num` trims its input and converts comma decimal
separators to periods, then attempts a float parse; when the parse
fails, it returns the trimmed input **with the comma→period conversion
applied** (so an unparseable string is modified by both trimming and
comma replacement). -/
theorem C4_parse_num :
    (∀ s q, pyFloat? (commaToDotL (pyStripL s.data)) = some q →
      parse_num s = Value.num q)
    ∧ (∀ s, pyFloat? (commaToDotL (pyStripL s.data)) = none →
      parse_num s = Value.str (commaToDotL (pyStripL s.data)).asString) := by
  constructor
  · intro s q h
    simp only [parse_num, h]
  · intro s h
    simp only [parse_num, h]
    rw [strip_commaToDot, strip_idem]

theorem pyFloat45 : pyFloat? (commaToDotL (pyStripL "4,5".data)) = some (9/2) := by
  rw [show commaToDotL (pyStripL "4,5".data) = ['4', '.', '5'] from rfl]
  simp only [pyFloat?,
    show parseSign ['4', '.', '5'] = (true, ['4', '.', '5']) from rfl,
    show digitsU ['4', '.', '5'] = (['4'], ['.', '5']) from rfl,
    show digitsU ['5'] = (['5'], ([] : List Char)) from rfl,
    show parseExp ([] : List Char) = some (0, []) from rfl,
    show digitsVal ['4'] = 4 from rfl,
    show digitsVal ['5'] = 5 from rfl]
  norm_num

theorem C4_parse_num_witness :
    parse_num "4,5" = Value.num (9/2) ∧ parse_num " a,b " = Value.str "a.b" := by
  constructor
  · exact C4_parse_num.1 "4,5" (9/2) pyFloat45
  · rw [C4_parse_num.2 " a,b " (by rfl)]
    rfl

/-! ## C3: the shape dispatch of `parse_courses` -/

theorem getLast?_cons_or (v : α) (L : List α) :
    (v :: L).getLast? = L.getLast?.or (some v) := by
  cases L with
  | nil => rfl
  | cons b bs =>
    rw [List.getLast?_cons_cons]
    cases h : (b :: bs).getLast? with
    | none =>
      exfalso
      have hne : b :: bs ≠ [] := by simp
      rw [← List.getLast?_isSome, h] at hne
      simp at hne
    | some x => rfl

theorem or_some (v : α) (t : Option α) : (some v).or t = some v := rfl

theorem sentinel_not_six (r : List Cell) (h : isSentinelRow r = true) :
    r.length ≠ 6 := by
  unfold isSentinelRow at h
  simp only [Bool.and_eq_true, decide_eq_true_eq] at h
  omega

theorem parseCoursesLoop_eq (rows : List (List Cell)) :
    ∀ acc tot, parseCoursesLoop rows acc tot
      = (acc ++ rows.filterMap courseOfRow?,
         ((rows.filterMap sentinelOf?).getLast?).or tot) := by
  induction rows with
  | nil =>
    intro acc tot
    simp [parseCoursesLoop, Option.or]
  | cons r rs ih =>
    intro acc tot
    by_cases hs : isSentinelRow r = true
    · have h6 := sentinel_not_six r hs
      have hcr : courseOfRow? r = none := by
        unfold courseOfRow?
        rw [if_neg h6]
      have hsr : sentinelOf? r = some (parse_num (r.getD 1 emptyCell).text) := by
        unfold sentinelOf?
        rw [if_pos hs]
      simp only [parseCoursesLoop]
      rw [if_pos hs, ih]
      rw [List.filterMap_cons_none hcr, List.filterMap_cons_some hsr]
      rw [getLast?_cons_or]
      cases hlast : ((rs.filterMap sentinelOf?)).getLast? with
      | none => rfl
      | some x => rfl
    · by_cases h6 : r.length = 6
      · have hcr : courseOfRow? r = some (extractCourse r) := by
          unfold courseOfRow?
          rw [if_pos h6]
        have hsr : sentinelOf? r = none := by
          unfold sentinelOf?
          rw [if_neg hs]
        simp only [parseCoursesLoop]
        rw [if_neg hs, if_pos h6, ih]
        rw [List.filterMap_cons_some hcr, List.filterMap_cons_none hsr]
        simp
      · have hcr : courseOfRow? r = none := by
          unfold courseOfRow?
          rw [if_neg h6]
        have hsr : sentinelOf? r = none := by
          unfold sentinelOf?
          rw [if_neg hs]
        simp only [parseCoursesLoop]
        rw [if_neg hs, if_neg h6, ih]
        rw [List.filterMap_cons_none hcr, List.filterMap_cons_none hsr]

theorem parse_num_num_iff (s : String) :
    (∃ q, parse_num s = Value.num q) ↔ validDecimal s = true := by
  unfold validDecimal
  simp only [parse_num]
  cases h : pyFloat? (commaToDotL (pyStripL s.data)) with
  | none => simp [h]
  | some q => simp [h]

/-- C3: the row loop of `parse_courses` yields exactly the 6-cell rows
as courses, in order, and the numeric parse of the last cell of the last
2-cell-empty-first sentinel row as the aggregate ECTS; rows of neither
shape contribute nothing; 6-cell rows yield the `extractCourse` record
(name always present, from the cell-3 anchor or the cell text; URL the
absolutized anchor href); and a grade or ects field is numeric exactly
when the source cell text is a valid comma-or-period decimal (accepted
by the float conversion after trimming and comma→period translation). -/
theorem C3_parse_courses_shape :
    (∀ rows, parse_courses rows
      = (rows.filterMap courseOfRow?, (rows.filterMap sentinelOf?).getLast?))
    ∧ (∀ r, isSentinelRow r = true →
        sentinelOf? r = some (parse_num (r.getD 1 emptyCell).text)
          ∧ courseOfRow? r = none)
    ∧ (∀ r, r.length = 6 →
        courseOfRow? r = some (extractCourse r) ∧ sentinelOf? r = none)
    ∧ (∀ r, r.length ≠ 6 → isSentinelRow r = false →
        courseOfRow? r = none ∧ sentinelOf? r = none)
    ∧ (∀ s, (∃ q, parse_num s = Value.num q) ↔ validDecimal s = true) := by
  refine ⟨?_, ?_, ?_, ?_, parse_num_num_iff⟩
  · intro rows
    unfold parse_courses
    rw [parseCoursesLoop_eq rows [] none]
    cases hlast : ((rows.filterMap sentinelOf?)).getLast? with
    | none => simp
    | some x => simp
  · intro r hs
    refine ⟨by unfold sentinelOf?; rw [if_pos hs], ?_⟩
    unfold courseOfRow?
    rw [if_neg (sentinel_not_six r hs)]
  · intro r h6
    have hs : isSentinelRow r = false :=
      Bool.eq_false_iff.mpr (fun hb => sentinel_not_six r hb h6)
    exact ⟨by unfold courseOfRow?; rw [if_pos h6],
      by unfold sentinelOf?; rw [if_neg (by simp [hs])]⟩
  · intro r h6 hs
    exact ⟨by unfold courseOfRow?; rw [if_neg h6],
      by unfold sentinelOf?; rw [if_neg (by simp [hs])]⟩

theorem C3_parse_courses_shape_witness :
    parse_courses [sentinelRowEx, courseRowEx]
      = ([sentinelRowEx, courseRowEx].filterMap courseOfRow?,
         ([sentinelRowEx, courseRowEx].filterMap sentinelOf?).getLast?)
    ∧ courseOfRow? courseRowEx = some (extractCourse courseRowEx)
    ∧ (∃ q, parse_num "55" = Value.num q) := by
  refine ⟨C3_parse_courses_shape.1 [sentinelRowEx, courseRowEx],
    (C3_parse_courses_shape.2.2.1 courseRowEx (by decide)).1,
    (C3_parse_courses_shape.2.2.2.2 "55").mpr (by rfl)⟩

/-! ## C9: idempotence of the URL-absolutization step -/

theorem urlsplit_netloc (d u : List Char) :
    (urlsplitM d u).netloc = netlocOfM u := rfl

theorem urlparse_netloc (d u : List Char) :
    (urlparseM d u).netloc = netlocOfM u := by
  simp only [urlparseM]
  split
  · exact urlsplit_netloc d u
  · exact urlsplit_netloc d u

theorem urlparse_base : urlparseM [] BASEURL = baseParsed := by rfl

/-- The netloc of any string of the form
`"https://classroom.btu.edu.ge/" ++ t` is the base host. -/
theorem netloc_of_base_result (t : List Char) :
    netlocOfM ("https://classroom.btu.edu.ge/".data ++ t)
      = "classroom.btu.edu.ge".data := rfl

theorem append_ite_append (u x : List Char) (b : Prop) [Decidable b] :
    (if b then u ++ x else u) = u ++ (if b then x else []) := by
  split
  · rfl
  · rw [List.append_nil]

theorem base_url_glue (w : List Char) :
    "https".data ++ ':' :: '/' :: '/' ::
        ("classroom.btu.edu.ge".data ++ '/' :: w)
      = "https://classroom.btu.edu.ge/".data ++ w := rfl

/-- `urlunsplit`/`urlunparse` on the base scheme and netloc with a
non-empty path always yields a string extending
`https://classroom.btu.edu.ge/`. -/
theorem unsplitNetlocPart_base (c : Char) (z : List Char) :
    ∃ w, unsplitNetlocPart "classroom.btu.edu.ge".data (c :: z)
      = '/' :: '/' :: ("classroom.btu.edu.ge".data ++ '/' :: w) := by
  unfold unsplitNetlocPart
  rw [if_pos (Or.inl (by simp))]
  by_cases hc : c = '/'
  · subst hc
    exact ⟨z, by rw [if_neg (by simp)]⟩
  · refine ⟨c :: z, ?_⟩
    rw [if_pos (by simp [List.take_cons, hc])]

theorem unsplitAddQuery_shape (q u : List Char) :
    unsplitAddQuery q u = u ++ (if q ≠ [] then '?' :: q else []) := by
  unfold unsplitAddQuery
  exact append_ite_append u ('?' :: q) (q ≠ [])

theorem unsplitAddFragment_shape (f u : List Char) :
    unsplitAddFragment f u = u ++ (if f ≠ [] then '#' :: f else []) := by
  unfold unsplitAddFragment
  exact append_ite_append u ('#' :: f) (f ≠ [])

theorem unparse_base_shape (p par q f : List Char) (hp : p ≠ []) :
    ∃ t, urlunparseM
        ⟨"https".data, "classroom.btu.edu.ge".data, p, par, q, f⟩
      = "https://classroom.btu.edu.ge/".data ++ t := by
  obtain ⟨c, z0, rfl⟩ := List.exists_cons_of_ne_nil hp
  have hurl : ∃ z, (if par ≠ [] then (c :: z0) ++ ';' :: par else c :: z0)
      = c :: z := by
    by_cases hpar : par = []
    · exact ⟨z0, by rw [if_neg (by simp [hpar])]⟩
    · refine ⟨z0 ++ ';' :: par, ?_⟩
      rw [if_pos (by simp [hpar])]
      rfl
  obtain ⟨z, hz⟩ := hurl
  unfold urlunparseM urlunsplitM
  simp only []
  rw [hz]
  obtain ⟨w, hw⟩ := unsplitNetlocPart_base c z
  rw [hw]
  rw [show unsplitAddScheme "https".data
        ('/' :: '/' :: ("classroom.btu.edu.ge".data ++ '/' :: w))
      = "https://classroom.btu.edu.ge/".data ++ w from by
    unfold unsplitAddScheme
    rw [if_pos (by simp)]
    exact base_url_glue w]
  rw [unsplitAddQuery_shape, unsplitAddFragment_shape]
  exact ⟨w ++ ((if q ≠ [] then '?' :: q else []) ++ (if f ≠ [] then '#' :: f else [])),
    by rw [List.append_assoc, List.append_assoc]⟩

theorem rpath_ne_nil (j : List Char) : (if j = [] then ['/'] else j) ≠ [] := by
  split
  · simp
  · assumption

/-- `urljoinResolve` against the parsed base always yields a string
extending `https://classroom.btu.edu.ge/`. -/
theorem urljoinResolve_shape (u : UrlParts) (hs : u.scheme = "https".data) :
    ∃ t, urljoinResolve baseParsed u
      = "https://classroom.btu.edu.ge/".data ++ t := by
  unfold urljoinResolve
  rw [hs]
  rw [if_pos (by decide : "https".data ∈ usesNetloc)]
  by_cases hpp : u.path = [] ∧ u.params = []
  · rw [if_pos hpp]
    exact unparse_base_shape baseParsed.path baseParsed.params
      (if u.query = [] then baseParsed.query else u.query) u.fragment (by decide)
  · rw [if_neg hpp]
    exact unparse_base_shape _ _ _ _ (rpath_ne_nil _)

/-- `urljoin(BASE_URL, u)` on a url without its own netloc either
returns `u` unchanged (foreign scheme) or produces an absolute URL on
the base host. -/
theorem urljoin_base_shape (u : List Char) (hu : ¬ u = [])
    (hn : netlocOfM u = []) :
    urljoinM BASEURL u = u
    ∨ ∃ t, urljoinM BASEURL u = "https://classroom.btu.edu.ge/".data ++ t := by
  simp only [urljoinM]
  rw [if_neg (by decide : ¬ (BASEURL = []))]
  rw [if_neg hu]
  rw [urlparse_base]
  by_cases hcond : (urlparseM baseParsed.scheme u).scheme ≠ baseParsed.scheme
      ∨ (urlparseM baseParsed.scheme u).scheme ∉ usesRelative
  · rw [if_pos hcond]
    exact Or.inl rfl
  · rw [if_neg hcond]
    push_neg at hcond
    have hnu : (urlparseM baseParsed.scheme u).netloc = [] := by
      rw [urlparse_netloc]
      exact hn
    rw [if_neg (by simp [hnu])]
    exact Or.inr (urljoinResolve_shape _ hcond.1)

/-- C9: the URL-absolutization step of `parse_courses` (join against the
fixed base unless the href already has a netloc) is idempotent on every
href, and an already-absolute href (non-empty netloc) is returned
unchanged. -/
theorem C9_absolutize_idempotent :
    (∀ u, absolutizeHref (absolutizeHref u) = absolutizeHref u)
    ∧ (∀ u, netlocOfM u ≠ [] → absolutizeHref u = u) := by
  have habs : ∀ u, netlocOfM u ≠ [] → absolutizeHref u = u := by
    intro u hn
    unfold absolutizeHref
    rw [if_neg (by tauto)]
  refine ⟨?_, habs⟩
  intro u
  by_cases hu : u = []
  · subst hu
    rfl
  · by_cases hn : netlocOfM u = []
    · have h1 : absolutizeHref u = urljoinM BASEURL u := by
        unfold absolutizeHref
        rw [if_pos ⟨hu, hn⟩]
      rcases urljoin_base_shape u hu hn with hcase | ⟨t, ht⟩
    -- the join returned the href unchanged: a fixed point
      · rw [h1.trans hcase]
        exact h1.trans hcase
      · rw [h1.trans ht]
        apply habs
        rw [netloc_of_base_result]
        simp
    · rw [habs u hn]
      exact habs u hn

theorem C9_absolutize_idempotent_witness :
    netlocOfM "https://host/x".data ≠ []
    ∧ absolutizeHref "https://host/x".data = "https://host/x".data :=
  ⟨by decide, C9_absolutize_idempotent.2 "https://host/x".data (by decide)⟩

/-! ## C5: the renderer's filesystem dependence -/

theorem syllabusHtml_fs_indep (c : CourseR) (d : Bundle)
    (h : strTruthy d.syllabus_file = true) (f1 f2 : Bool) :
    syllabusHtmlOf c d f1 = syllabusHtmlOf c d f2 := by
  unfold syllabusHtmlOf
  simp [h]

set_option maxRecDepth 4000 in
/-- C5 counterexample: on equal `(course, data)` arguments (no captured
remote syllabus URL) the per-course HTML differs between a filesystem
state where `courses/<name>/syllabus.pdf` exists and one where it does
not — the renderer reads `os.path.exists`, so it is not a pure function
of its arguments. -/
theorem C5_counterexample :
    generate_course_html courseStr bundleEmpty true
      ≠ generate_course_html courseStr bundleEmpty false := by
  decide

/-- C5 (amended): the per-course renderer is deterministic given the
`(Course, CourseDataBundle)` pair **plus** the existence of the locally
cached syllabus PDF; the filesystem enters only through that flag, and
whenever a (truthy) remote syllabus-file URL was captured the output is
independent of the flag. -/
theorem C5_renderer_deterministic :
    ∀ c d f1 f2, strTruthy d.syllabus_file = true →
      generate_course_html c d f1 = generate_course_html c d f2 := by
  intro c d f1 f2 h
  unfold generate_course_html
  rw [syllabusHtml_fs_indep c d h f1 f2]

theorem C5_renderer_deterministic_witness :
    strTruthy bundleSyl.syllabus_file = true
    ∧ generate_course_html courseStr bundleSyl true
      = generate_course_html courseStr bundleSyl false :=
  ⟨rfl, C5_renderer_deterministic courseStr bundleSyl true false rfl⟩

/-! ## C6: `max_points` and its role in percentage rendering -/

/-- C6: every assessment built by `parse_scores` carries
`max_points = parseMaxPoints component`; `parseMaxPoints` is `some`
only when the `max N` search inside the label yields a group whose
float parse succeeds; an assessment with `max_points = none` gets no
percentage badge and no percentage colour from the renderer; and the
component `"Midterm (max. 30)"` parses to `max_points = 30` with its
rendered label truncated to `"Midterm"`. -/
theorem C6_max_points :
    (∀ d a, a ∈ (parse_scores d).assessments →
      a.max_points = parseMaxPoints a.component)
    ∧ (∀ comp v, parseMaxPoints comp = some v →
        ∃ g, maxSearch comp.data = some g ∧ pyFloat? (commaToDotL g) = some v)
    ∧ (∀ a, a.max_points = none →
        (asmtParts a).2.2 = ""
          ∧ ((asmtParts a).2.1 = "" ∨ (asmtParts a).2.1 = " empty"))
    ∧ parseMaxPoints "Midterm (max. 30)" = some 30
    ∧ truncName "Midterm (max. 30)" = "Midterm" := by
  refine ⟨?_, ?_, ?_, ?_, by rfl⟩
  · intro d a ha
    simp only [parse_scores] at ha
    rcases List.mem_filterMap.mp ha with ⟨tds, _, heq⟩
    simp only [assessmentOfRow] at heq
    split at heq
    · cases heq
    · split at heq
      · cases heq
      · split at heq
        · cases heq
        · cases heq
          rfl
  · intro comp v hv
    unfold parseMaxPoints at hv
    cases hms : maxSearch comp.data with
    | none => rw [hms] at hv; cases hv
    | some g =>
      rw [hms] at hv
      exact ⟨g, rfl, hv⟩
  · intro a ha
    unfold asmtParts
    cases hs : a.score with
    | none => exact ⟨rfl, Or.inr rfl⟩
    | some rs =>
      by_cases hrs : rs = ""
      · simp [hrs]
      · simp [hrs, ha]
  · unfold parseMaxPoints
    rw [show maxSearch "Midterm (max. 30)".data = some ['3', '0'] from rfl]
    show pyFloat? (commaToDotL ['3', '0']) = some 30
    rw [show commaToDotL ['3', '0'] = ['3', '0'] from rfl]
    simp only [pyFloat?,
      show parseSign ['3', '0'] = (true, ['3', '0']) from rfl,
      show digitsU ['3', '0'] = (['3', '0'], ([] : List Char)) from rfl,
      show parseExp ([] : List Char) = some (0, []) from rfl,
      show digitsVal ['3', '0'] = 30 from rfl,
      show digitsVal ([] : List Char) = 0 from rfl]
    norm_num
    exact fun h => absurd h (by simp)

theorem C6_max_points_witness :
    quizAssessment.max_points = parseMaxPoints quizAssessment.component
    ∧ (asmtParts quizAssessment).2.2 = "" :=
  ⟨C6_max_points.1 quizDoc quizAssessment (by decide),
   (C6_max_points.2.2.1 quizAssessment rfl).1⟩

/-! ## C7: the per-tag caching policy -/

theorem fetchSub_pdf_mono (ok : STag → Bool) (st : CourseFs) (t : STag)
    (h : st.pdfExists = true) : (fetchSub ok st t).1.pdfExists = true := by
  cases t <;> simp [fetchSub, h] <;> split_ifs <;> simp [h]

theorem fetchSub_scoresHtml_mono (ok : STag → Bool) (st : CourseFs) (t : STag)
    (h : st.scoresHtml = true) : (fetchSub ok st t).1.scoresHtml = true := by
  cases t <;> simp [fetchSub, h] <;> split_ifs <;> simp [h]

theorem fetchSub_syllabusHtml_mono (ok : STag → Bool) (st : CourseFs) (t : STag)
    (h : st.syllabusHtml = true) : (fetchSub ok st t).1.syllabusHtml = true := by
  cases t <;> simp [fetchSub, h] <;> split_ifs <;> simp [h]

theorem fetchSub_groupsHtml_mono (ok : STag → Bool) (st : CourseFs) (t : STag)
    (h : st.groupsHtml = true) : (fetchSub ok st t).1.groupsHtml = true := by
  cases t <;> simp [fetchSub, h] <;> split_ifs <;> simp [h]

theorem run_pdf_mono (ok : STag → Bool) (urls : List STag) (st : CourseFs)
    (h : st.pdfExists = true) :
    (fetchCoursePages ok urls st).1.pdfExists = true := by
  induction urls generalizing st with
  | nil => exact h
  | cons t ts ih =>
    exact ih _ (fetchSub_pdf_mono ok st t h)

theorem run_scores_fetched (ok : STag → Bool) (urls : List STag) (st : CourseFs)
    (h : STag.scores ∈ urls) :
    STag.scores ∈ (fetchCoursePages ok urls st).2 := by
  induction urls generalizing st with
  | nil => cases h
  | cons t ts ih =>
    simp only [fetchCoursePages, List.mem_append]
    rcases List.mem_cons.mp h with h1 | h2
    · subst h1
      left
      simp [fetchSub]
    · right
      exact ih _ h2

theorem run_files_fetched (ok : STag → Bool) (urls : List STag) (st : CourseFs)
    (h : STag.files ∈ urls) :
    STag.files ∈ (fetchCoursePages ok urls st).2 := by
  induction urls generalizing st with
  | nil => cases h
  | cons t ts ih =>
    simp only [fetchCoursePages, List.mem_append]
    rcases List.mem_cons.mp h with h1 | h2
    · subst h1
      left
      simp [fetchSub]
    · right
      exact ih _ h2

theorem run_no_pdf_fetch (ok : STag → Bool) (urls : List STag) (st : CourseFs)
    (h : st.pdfExists = true) :
    STag.syllabusFile ∉ (fetchCoursePages ok urls st).2 := by
  induction urls generalizing st with
  | nil => simp [fetchCoursePages]
  | cons t ts ih =>
    simp only [fetchCoursePages, List.mem_append]
    intro hc
    rcases hc with h1 | h2
    · cases t <;> simp [fetchSub, h] at h1 <;> revert h1 <;> split_ifs <;> simp
    · exact ih _ (fetchSub_pdf_mono ok st t h) h2

theorem run_no_syllabus_fetch (ok : STag → Bool) (urls : List STag)
    (st : CourseFs) (h : st.syllabusHtml = true) :
    STag.syllabus ∉ (fetchCoursePages ok urls st).2 := by
  induction urls generalizing st with
  | nil => simp [fetchCoursePages]
  | cons t ts ih =>
    simp only [fetchCoursePages, List.mem_append]
    intro hc
    rcases hc with h1 | h2
    · cases t <;> simp [fetchSub, h] at h1 <;> revert h1 <;> split_ifs <;> simp
    · exact ih _ (fetchSub_syllabusHtml_mono ok st t h) h2

theorem run_no_groups_fetch (ok : STag → Bool) (urls : List STag)
    (st : CourseFs) (h : st.groupsHtml = true) :
    STag.groups ∉ (fetchCoursePages ok urls st).2 := by
  induction urls generalizing st with
  | nil => simp [fetchCoursePages]
  | cons t ts ih =>
    simp only [fetchCoursePages, List.mem_append]
    intro hc
    rcases hc with h1 | h2
    · cases t <;> simp [fetchSub, h] at h1 <;> revert h1 <;> split_ifs <;> simp
    · exact ih _ (fetchSub_groupsHtml_mono ok st t h) h2

theorem run_scoresHtml_mono (ok : STag → Bool) (urls : List STag)
    (st : CourseFs) (h : st.scoresHtml = true) :
    (fetchCoursePages ok urls st).1.scoresHtml = true := by
  induction urls generalizing st with
  | nil => exact h
  | cons t ts ih =>
    exact ih _ (fetchSub_scoresHtml_mono ok st t h)

theorem run_scores_overwritten (urls : List STag) (st : CourseFs)
    (h : STag.scores ∈ urls) :
    (fetchCoursePages (fun _ => true) urls st).1.scoresHtml = true := by
  induction urls generalizing st with
  | nil => cases h
  | cons t ts ih =>
    rcases List.mem_cons.mp h with h1 | h2
    · subst h1
      show (fetchCoursePages (fun _ => true) ts
        (fetchSub (fun _ => true) st .scores).1).1.scoresHtml = true
      exact run_scoresHtml_mono _ ts _ (by simp [fetchSub])
    · exact ih _ h2

/-- C7: in the subpage loop, `scores` and `files` entries are fetched on
every run regardless of the cached state (and on success the cached
`scores.html` is rewritten), while `syllabus_file`, `syllabus` and
`groups` are never fetched when their cached file already exists; in
particular, running the loop twice with the canonical syllabus PDF on
disk issues no `syllabus_file` fetch in either run while a `scores`
fetch occurs in both. -/
theorem C7_caching_policy :
    (∀ ok urls st, STag.scores ∈ urls →
      STag.scores ∈ (fetchCoursePages ok urls st).2)
    ∧ (∀ ok urls st, STag.files ∈ urls →
      STag.files ∈ (fetchCoursePages ok urls st).2)
    ∧ (∀ ok urls st, st.pdfExists = true →
      STag.syllabusFile ∉ (fetchCoursePages ok urls st).2)
    ∧ (∀ ok urls st, st.syllabusHtml = true →
      STag.syllabus ∉ (fetchCoursePages ok urls st).2)
    ∧ (∀ ok urls st, st.groupsHtml = true →
      STag.groups ∉ (fetchCoursePages ok urls st).2)
    ∧ (∀ urls st, STag.scores ∈ urls →
      (fetchCoursePages (fun _ => true) urls st).1.scoresHtml = true)
    ∧ (∀ ok urls st, st.pdfExists = true → STag.scores ∈ urls →
      STag.syllabusFile ∉ (fetchCoursePages ok urls st).2
      ∧ STag.syllabusFile ∉
          (fetchCoursePages ok urls (fetchCoursePages ok urls st).1).2
      ∧ STag.scores ∈ (fetchCoursePages ok urls st).2
      ∧ STag.scores ∈
          (fetchCoursePages ok urls (fetchCoursePages ok urls st).1).2) := by
  refine ⟨run_scores_fetched, run_files_fetched, run_no_pdf_fetch,
    run_no_syllabus_fetch, run_no_groups_fetch, run_scores_overwritten, ?_⟩
  intro ok urls st hpdf hsc
  exact ⟨run_no_pdf_fetch ok urls st hpdf,
    run_no_pdf_fetch ok urls _ (run_pdf_mono ok urls st hpdf),
    run_scores_fetched ok urls st hsc,
    run_scores_fetched ok urls _ hsc⟩

theorem C7_caching_policy_witness :
    STag.syllabusFile ∉
      (fetchCoursePages (fun _ => true) [.scores, .syllabusFile]
        ⟨true, false, false, false, false⟩).2
    ∧ STag.scores ∈
      (fetchCoursePages (fun _ => true) [.scores, .syllabusFile]
        ⟨true, false, false, false, false⟩).2 :=
  ⟨((C7_caching_policy.2.2.2.2.2.2 (fun _ => true) [.scores, .syllabusFile]
      ⟨true, false, false, false, false⟩ rfl (by decide)).1),
   ((C7_caching_policy.2.2.2.2.2.2 (fun _ => true) [.scores, .syllabusFile]
      ⟨true, false, false, false, false⟩ rfl (by decide)).2.2.1)⟩

/-! ## C8: the extractors' no-raise contract and its violation -/

/-- C8: the extractors return empty defaults when the expected elements
are absent — but `parse_files` is not total: on a files-table row whose
second cell contains an anchor **without** an `href` attribute, the
source evaluates `ext_link["href"]` (main.py line 203, unguarded unlike
the `file_link.get("href")` on line 198) and raises `KeyError`. -/
theorem C8_parse_files_raises :
    parse_files (some [badFileRow]) none = .error "KeyError: href"
    ∧ parse_scores ⟨none, none, none⟩ = ⟨none, none, []⟩
    ∧ parse_courses [] = ([], none)
    ∧ parse_groups none = []
    ∧ (∀ t, extract_course_urls none none t = none) := by
  refine ⟨by rfl, by rfl, by rfl, by rfl, fun t => by cases t <;> rfl⟩

/-! ## C10: landing-page failure propagation in `/api/generate` -/

theorem generateLoop_no_writeIndex (landing : ℕ → Except String Bundle)
    (cs : List CourseR) (i : ℕ) :
    GEvent.writeIndex ∉ (generateLoop landing cs i).2 := by
  induction cs generalizing i with
  | nil => simp [generateLoop]
  | cons c cs' ih =>
    unfold generateLoop
    by_cases hu : urlTruthy c = true
    · simp only [hu, if_true]
      cases hl : landing i with
      | error e => simp
      | ok b =>
        simp only [List.mem_cons]
        intro hc
        rcases hc with h1 | h2
        · cases h1
        · exact ih (i + 1) h2
    · simp only [hu]
      simp only [Bool.false_eq_true, if_false]
      exact ih (i + 1)

theorem generateLoop_error (landing : ℕ → Except String Bundle) (e : String) :
    ∀ (cs : List CourseR) (i0 k : ℕ) (hk : k < cs.length),
      urlTruthy (cs.get ⟨k, hk⟩) = true →
      landing (i0 + k) = .error e →
      (∀ j, j < k → ∃ b, landing (i0 + j) = .ok b) →
      (generateLoop landing cs i0).1 = .error e
      ∧ ∀ j, i0 + k < j →
          GEvent.landingFetch j ∉ (generateLoop landing cs i0).2 := by
  intro cs
  induction cs with
  | nil => intro i0 k hk; cases hk
  | cons c cs' ih =>
    intro i0 k hk ht he hj
    cases k with
    | zero =>
      simp only [List.get] at ht
      unfold generateLoop
      simp only [ht, if_true]
      rw [show i0 + 0 = i0 from rfl] at he
      rw [he]
      refine ⟨rfl, ?_⟩
      intro j hjgt
      simp only [List.mem_singleton]
      intro hc
      cases hc
      omega
    | succ k' =>
      have hk' : k' < cs'.length := by
        simpa using hk
      have ht' : urlTruthy (cs'.get ⟨k', hk'⟩) = true := by
        simpa using ht
      have he' : landing (i0 + 1 + k') = .error e := by
        rw [show i0 + 1 + k' = i0 + (k' + 1) from by omega]
        exact he
      have hj' : ∀ j, j < k' → ∃ b, landing (i0 + 1 + j) = .ok b := by
        intro j hjlt
        rw [show i0 + 1 + j = i0 + (j + 1) from by omega]
        exact hj (j + 1) (by omega)
      have hrec := ih (i0 + 1) k' hk' ht' he' hj'
      unfold generateLoop
      by_cases hu : urlTruthy c = true
      · simp only [hu, if_true]
        obtain ⟨b, hb⟩ := hj 0 (by omega)
        rw [show i0 + 0 = i0 from rfl] at hb
        rw [hb]
        constructor
        · simp only []
          rw [hrec.1]
          rfl
        · intro j hjgt
          simp only [List.mem_cons]
          intro hc
          rcases hc with h1 | h2
          · cases h1
            omega
          · exact hrec.2 j (by omega) h2
      · simp only [hu]
        simp only [Bool.false_eq_true, if_false]
        constructor
        · rw [hrec.1]
          rfl
        · intro j hjgt
          exact hrec.2 j (by omega)

/-- C10: the per-course landing fetch of `/api/generate` is unguarded —
when it raises at course `k` (all earlier landing fetches succeeding),
the exception propagates out of the endpoint: the result is the error
(no course count), the dashboard is never written, and no later course's
landing page is fetched. -/
theorem C10_landing_failure :
    ∀ (landing : ℕ → Except String Bundle) (courses : List CourseR) (k : ℕ)
      (e : String) (hk : k < courses.length),
      urlTruthy (courses.get ⟨k, hk⟩) = true →
      landing k = .error e →
      (∀ j, j < k → ∃ b, landing j = .ok b) →
      (api_generate landing courses).1 = .error e
      ∧ GEvent.writeIndex ∉ (api_generate landing courses).2
      ∧ ∀ j, k < j →
          GEvent.landingFetch j ∉ (api_generate landing courses).2 := by
  intro landing courses k e hk ht he hj
  have hloop := generateLoop_error landing e courses 0 k hk ht
    (by simpa using he) (by simpa using hj)
  simp only [api_generate]
  rw [hloop.1]
  refine ⟨rfl, ?_, ?_⟩
  · exact generateLoop_no_writeIndex landing courses 0
  · intro j hjgt
    exact hloop.2 j (by omega)

theorem C10_landing_failure_witness :
    (api_generate witnessLanding witnessCourses).1 = .error "boom"
    ∧ GEvent.writeIndex ∉ (api_generate witnessLanding witnessCourses).2 := by
  have h := C10_landing_failure witnessLanding witnessCourses 1 "boom"
    (by decide) (by decide) (by rfl)
    (by
      intro j hj
      refine ⟨⟨none, [], [], none⟩, ?_⟩
      have : j = 0 := by omega
      subst this
      rfl)
  exact ⟨h.1, h.2.1⟩

end Scraper
